import Mathlib

/-
Verification of the MNIST CNN training script CNN1.py
(src/PYTHON/MNIST/MNIST-LeNet5/CNN1.py).

The script is straight-line glue over TensorFlow/Keras primitives.  We embed,
shallowly and from the source:
  - the hyperparameter constants (lines 27-32);
  - the per-sample transform normalize_img (lines 35-41), both its shape
    semantics (tensor ranks and dimensions) and its value semantics
    (real-number standardization);
  - the one-hot label encoding tf.one_hot(label, NUM_CLASSES) (line 41);
  - the dataset pipelines of load_datasets (lines 55-60), as an op list plus
    order semantics for the deterministic ops;
  - the layer stack and compile configuration of build_model (lines 67-92);
  - the early-stopping fit loop of main (lines 128-136), i.e. the semantics of
    keras EarlyStopping(monitor=val_loss, patience=5, restore_best_weights);
  - the persistence tail of main (lines 142-148) as a statement sequence over
    the module global-name environment.
-/

namespace CNN1

/-- Hyperparameter constants, CNN1.py lines 27-31. -/
def NUM_CLASSES : Nat := 10

/-- Batch size constant, CNN1.py line 29. -/
def BATCH_SIZE : Nat := 128

/-- Maximum epoch count, CNN1.py line 30. -/
def MAX_EPOCHS : Nat := 50

/-- Dropout rate, CNN1.py line 31. -/
def DROPOUT_RATE : Rat := 15/100

/-- Early-stopping patience, from the EarlyStopping call on CNN1.py line 134. -/
def ES_PATIENCE : Nat := 5

/-- Declared model input shape, CNN1.py line 27: (28, 28, 1). -/
def INPUT_SHAPE : List Nat := [28, 28, 1]

/-! ## Shape semantics of the per-sample transform (normalize_img, lines 35-41) -/

/-- Shape of an image element of the tfds mnist dataset: the mnist feature
space declares images of shape (28, 28, 1). -/
def mnistImageShape : List Nat := [28, 28, 1]

/-- Shape semantics of tf.expand_dims(t, -1): a trailing unit axis is appended
to the shape. -/
def expandDimsLast (s : List Nat) : List Nat := s ++ [1]

/-- Shape semantics of the image branch of normalize_img (CNN1.py lines 37-41):
the cast and the scalar scale, subtraction and division are elementwise and
preserve the shape; tf.nn.moments with axes=[0,1,2] reduces over three axes and
therefore requires rank at least 3 (otherwise the call fails, modelled as none);
finally tf.expand_dims(image, -1) appends a trailing unit axis. -/
def normalize_img_shape (s : List Nat) : Option (List Nat) :=
  if s.length < 3 then none else some (expandDimsLast s)

/-! ## Label encoding (tf.one_hot, line 41) -/

/-- tf.one_hot(label, depth): a length-depth vector with a single 1 at
position label; an out-of-range label yields the all-zero vector. -/
def one_hot (depth : Nat) (label : Int) : List Rat :=
  (List.range depth).map (fun i : Nat => if (i : Int) = label then 1 else 0)

/-! ## Batching (tf.data Dataset.batch, used at lines 56 and 60) -/

/-- Dataset.batch(B) with the default drop_remainder=False: consecutive groups
of B elements; the final group may be smaller.  B = 0 never occurs in the
script (BATCH_SIZE = 128); we let it produce no batches. -/
def batchDs (B : Nat) : List α → List (List α)
  | [] => []
  | x :: xs =>
    if _h : B = 0 then []
    else (x :: xs).take B :: batchDs B ((x :: xs).drop B)
termination_by l => l.length
decreasing_by
  simp only [List.length_drop, List.length_cons]
  omega

/-! ## Dataset pipelines (load_datasets, CNN1.py lines 55-60) -/

/-- Argument of Dataset.prefetch: the script passes tf.data.AUTOTUNE, not a
fixed buffer size. -/
inductive PrefetchArg
  | autotune
  | bufSize (n : Nat)
deriving DecidableEq

/-- Argument num_parallel_calls of Dataset.map: the script passes
tf.data.AUTOTUNE. -/
inductive MapParallel
  | autotune
  | sequential
deriving DecidableEq

/-- One tf.data pipeline stage as invoked by load_datasets. -/
inductive DsOp
  | mapNormalize (par : MapParallel)
  | cache
  | shuffle (buffer : Nat)
  | batch (size : Nat)
  | prefetch (arg : PrefetchArg)
deriving DecidableEq

/-- Train pipeline stages in application order, CNN1.py lines 55-56:
map(normalize_img, AUTOTUNE), cache, shuffle(1000), batch(128),
prefetch(AUTOTUNE). -/
def ds_train_ops : List DsOp :=
  [.mapNormalize .autotune, .cache, .shuffle 1000,
   .batch BATCH_SIZE, .prefetch .autotune]

/-- Test pipeline stages in application order, CNN1.py lines 59-60:
map(normalize_img, AUTOTUNE), batch(128), cache, prefetch(AUTOTUNE). -/
def ds_test_ops : List DsOp :=
  [.mapNormalize .autotune, .batch BATCH_SIZE, .cache, .prefetch .autotune]

/-- Element-order semantics of Dataset.cache: caching replays elements in
unchanged order. -/
def cacheDs (l : List α) : List α := l

/-- Element-order semantics of Dataset.prefetch: prefetching overlaps
production with consumption and does not reorder elements. -/
def prefetchDs (l : List α) : List α := l

/-- Order semantics of the test pipeline of load_datasets (lines 59-60): the
per-sample transform f is mapped over the source elements, which are then
batched, cached and prefetched; no shuffle stage occurs. -/
def ds_test_eval (f : α → β) (l : List α) : List (List β) :=
  prefetchDs (cacheDs (batchDs BATCH_SIZE (l.map f)))

/-! ## Model architecture and compilation (build_model, CNN1.py lines 65-93) -/

/-- Activation functions appearing in build_model. -/
inductive Activation
  | relu
  | softmax
deriving DecidableEq

/-- Conv2D padding modes. -/
inductive Padding
  | valid
  | same
deriving DecidableEq

/-- Kernel weight initializers: the he_normal keyword, or the keras Dense and
Conv2D default glorot_uniform when the keyword is absent. -/
inductive WInit
  | heNormal
  | glorotUniform
deriving DecidableEq

/-- A keras layer as constructed in build_model. -/
inductive Layer
  | conv2d (filters kernel : Nat) (act : Activation) (pad : Padding) (kinit : WInit)
  | maxPooling2d (pool : Nat)
  | dropout (rate : Rat)
  | flatten
  | dense (units : Nat) (act : Activation) (kinit : WInit)
deriving DecidableEq

/-- The Sequential layer stack of build_model, CNN1.py lines 67-85, in order.
The final Dense layer passes no kernel_init keyword, so it gets the keras
default glorot_uniform. -/
def build_model_layers : List Layer :=
  [ .conv2d 32 5 .relu .valid .heNormal,
    .maxPooling2d 2,
    .dropout DROPOUT_RATE,
    .conv2d 64 5 .relu .valid .heNormal,
    .maxPooling2d 2,
    .dropout DROPOUT_RATE,
    .flatten,
    .dense 1024 .relu .heNormal,
    .dropout DROPOUT_RATE,
    .dense NUM_CLASSES .softmax .glorotUniform ]

/-- Optimizer choice in model.compile. -/
inductive OptimizerKind
  | adam
deriving DecidableEq

/-- Loss choice in model.compile. -/
inductive LossKind
  | categoricalCrossentropy
deriving DecidableEq

/-- Metric choice in model.compile. -/
inductive MetricKind
  | accuracy
deriving DecidableEq

/-- The compile configuration of build_model. -/
structure CompileCfg where
  opt : OptimizerKind
  learningRate : Rat
  loss : LossKind
  metrics : List MetricKind
deriving DecidableEq

/-- model.compile arguments, CNN1.py lines 88-92: Adam with learning rate
0.001, categorical cross-entropy, accuracy metric. -/
def build_model_compile : CompileCfg :=
  ⟨.adam, 1/1000, .categoricalCrossentropy, [.accuracy]⟩

/-- Shape inference for a single layer on a rank-3 [h, w, c] or rank-1 [d]
input, per keras semantics: valid convolution shrinks each spatial axis by
kernel - 1, same convolution preserves it, max pooling divides by the pool
size (floor), dropout preserves shape, flatten multiplies the axes, dense
replaces the feature axis by its unit count. -/
def applyLayer : List Nat → Layer → Option (List Nat)
  | [h, w, _c], .conv2d f k _ .valid _ =>
    if k ≤ h ∧ k ≤ w then some [h - k + 1, w - k + 1, f] else none
  | [h, w, _c], .conv2d f _ _ .same _ => some [h, w, f]
  | [h, w, c], .maxPooling2d p => if 0 < p then some [h / p, w / p, c] else none
  | s, .dropout _ => some s
  | [h, w, c], .flatten => some [h * w * c]
  | [_d], .dense u _ _ => some [u]
  | _, _ => none

/-- Shape inference through a layer stack. -/
def shapeAfter (ls : List Layer) (s : List Nat) : Option (List Nat) :=
  ls.foldlM applyLayer s

/-! ## Persistence tail of main (CNN1.py lines 142-148) -/

/-- Names bound at module level in CNN1.py when main runs: the five imports
(lines 20-24), the six constants (lines 27-32) and the five functions.
MODEL_DIR is referenced on lines 142-143 but never bound. -/
def cnn1Globals : List String :=
  ["tf", "np", "plt", "tfds", "os",
   "INPUT_SHAPE", "NUM_CLASSES", "BATCH_SIZE", "MAX_EPOCHS", "DROPOUT_RATE",
   "MODEL_H5_PATH",
   "normalize_img", "load_datasets", "build_model", "plot_metrics", "main"]

/-- Methods available on the compiled keras Sequential model object that the
script relies on.  Per the script header comment (line 18), export is an
erroneous call on this object and raises; the comment says the correct call is
model.save. -/
def modelAttrs : List String :=
  ["compile", "fit", "evaluate", "predict", "save", "summary",
   "get_weights", "set_weights"]

/-- Python errors the persistence tail can raise. -/
inductive PyErr
  | nameError (n : String)
  | attributeError (n : String)
deriving DecidableEq

/-- The statements of main after plotting, CNN1.py lines 142-148. -/
inductive PStmt
  | checkDir (globalName : String)
  | callSave (path : String)
  | callExport (path : String)

/-- One statement of the persistence tail: the directory check evaluates the
bare global name MODEL_DIR (NameError when unbound); model.save requires the
save attribute; model.export requires the export attribute (AttributeError
when missing).  A successful save yields the path written. -/
def runStmt : PStmt → Except PyErr (Option String)
  | .checkDir n =>
    if n ∈ cnn1Globals then .ok none else .error (.nameError n)
  | .callSave p =>
    if "save" ∈ modelAttrs then .ok (some p) else .error (.attributeError "save")
  | .callExport p =>
    if "export" ∈ modelAttrs then .ok (some p) else .error (.attributeError "export")

/-- Run a statement sequence until the first raised error; returns the paths
written before the error together with the error, if any. -/
def runPersist : List PStmt → List String × Option PyErr
  | [] => ([], none)
  | s :: rest =>
    match runStmt s with
    | .error e => ([], some e)
    | .ok w =>
      let r := runPersist rest
      (w.toList ++ r.1, r.2)

/-- The persistence tail of main, CNN1.py lines 142-148: the MODEL_DIR
directory check, the two model.save calls and the model.export call. -/
def mainPersistStmts : List PStmt :=
  [ .checkDir "MODEL_DIR",
    .callSave "CNN1_saved_model.keras",
    .callSave "CNN1_mnist_model.h5",
    .callExport "CNN1_saved_model" ]

/-- Observable outcome of the persistence tail. -/
def persistenceTrace : List String × Option PyErr :=
  runPersist mainPersistStmts

/-! ## Value semantics of the per-sample transform (normalize_img, lines 37-40)

The image branch of normalize_img flattens to the multiset of pixel values:
tf.nn.moments with axes=[0,1,2] reduces over every axis of the rank-3 image,
so mean and variance are scalars over all n = 28*28*1 = 784 pixels.  We model
the float arithmetic over the reals, with the pixel count n a parameter and
the mnist instantiation at n = 784. -/

/-- Pixel count of an mnist image, 28 * 28 * 1. -/
def MNIST_PIXELS : Nat := 784

noncomputable section

/-- Scalar mean of the n pixel values (tf.nn.moments, axes=[0,1,2]). -/
def imgMean (n : Nat) (x : Fin n → ℝ) : ℝ := (∑ i, x i) / (n : ℝ)

/-- Scalar variance of the n pixel values (tf.nn.moments, axes=[0,1,2]). -/
def imgVar (n : Nat) (x : Fin n → ℝ) : ℝ :=
  (∑ i, (x i - imgMean n x) ^ 2) / (n : ℝ)

/-- The epsilon guard added to the standard deviation, CNN1.py line 40. -/
def EPS : ℝ := 1 / 1000000

/-- Line 37: cast to float32 and divide by 255.0. -/
def scale255 (n : Nat) (raw : Fin n → ℝ) : Fin n → ℝ := fun i => raw i / 255

/-- Value semantics of the image branch of normalize_img, CNN1.py lines 37-40:
scale to [0,1], then standardize by (x - mean) / (sqrt var + 1e-6). -/
def normalize_img_vals (n : Nat) (raw : Fin n → ℝ) : Fin n → ℝ :=
  fun i =>
    (scale255 n raw i - imgMean n (scale255 n raw)) /
      (Real.sqrt (imgVar n (scale255 n raw)) + EPS)

end

/-! ## The fit loop with EarlyStopping (main, CNN1.py lines 128-136)

model.fit(ds_train, epochs=50, validation_data=ds_test,
          callbacks=[EarlyStopping(patience=5, restore_best_weights=True)]).

EarlyStopping defaults: monitor val_loss, min_delta 0, mode min, baseline
None.  Per epoch (0-indexed), on_epoch_end increments the wait counter,
resets it and records the best value, epoch and weights on strict improvement
of val_loss, and stops training (restoring the recorded best weights) once
wait reaches patience, ignoring epoch 0.  Validation losses are modelled as
rationals (exact float values), weights as an abstract type indexed by the
epoch after whose training step they are current. -/

/-- Callback state of EarlyStopping: wait counter, best val_loss so far
(none before the first epoch, i.e. an infinite initial best), and the weight
snapshot from the best epoch. -/
structure ESState (W : Type) where
  wait : Nat
  best : Option Rat
  bestW : Option W

/-- One on_epoch_end update of EarlyStopping: with no recorded best, or on
cur < best (min_delta = 0, so equality is no improvement), record cur and the
current weights and reset wait; otherwise increment wait. -/
def esUpdate (w : W) (cur : Rat) (st : ESState W) : ESState W :=
  match st.best with
  | none => ⟨0, some cur, some w⟩
  | some b => if cur < b then ⟨0, some cur, some w⟩
              else ⟨st.wait + 1, st.best, st.bestW⟩

/-- The fit loop: fuel epochs remain, epoch is the 0-indexed current epoch,
wlast the weights after the previous epoch.  Each epoch trains (weights
epoch), runs on_epoch_end, and stops early when the wait counter has reached
patience (not on epoch 0), restoring the best snapshot.  Returns the number
of epochs run and the final weights. -/
def fitAux (patience : Nat) (losses : Nat → Rat) (weights : Nat → W) :
    Nat → Nat → ESState W → W → Nat × W
  | 0, epoch, _, wlast => (epoch, wlast)
  | fuel + 1, epoch, st, _ =>
    let w := weights epoch
    let st2 := esUpdate w (losses epoch) st
    if patience ≤ st2.wait ∧ 0 < epoch then
      (epoch + 1, st2.bestW.getD w)
    else
      fitAux patience losses weights fuel (epoch + 1) st2 w

/-- model.fit with the EarlyStopping callback of CNN1.py line 134: start at
epoch 0 with an empty callback state and run at most maxEpochs epochs. -/
def fit (patience maxEpochs : Nat) (losses : Nat → Rat) (weights : Nat → W)
    (w0 : W) : Nat × W :=
  fitAux patience losses weights maxEpochs 0 ⟨0, none, none⟩ w0

/-- A concrete validation-loss sequence used to instantiate the
early-stopping theorem: one strict improvement (epoch 0 to 1), then a plateau
at the best value. -/
def wlosses : Nat → Rat := fun i => if i = 0 then 10 else 5

/-! ## Verification -/

theorem batchDs_nil (B : Nat) : batchDs B ([] : List α) = [] := by
  rw [batchDs]

theorem batchDs_cons (B : Nat) (hB : B ≠ 0) (x : α) (xs : List α) :
    batchDs B (x :: xs) = (x :: xs).take B :: batchDs B ((x :: xs).drop B) := by
  rw [batchDs]
  simp [hB]

theorem batchDs_ne_nil (B : Nat) (hB : B ≠ 0) (l : List α) (hl : l ≠ []) :
    batchDs B l ≠ [] := by
  cases l with
  | nil => exact absurd rfl hl
  | cons x xs => rw [batchDs_cons B hB]; simp

theorem batchDs_eq_nil_iff (B : Nat) (hB : B ≠ 0) (l : List α) :
    batchDs B l = [] ↔ l = [] := by
  constructor
  · intro h
    by_contra hl
    exact batchDs_ne_nil B hB l hl h
  · intro h; subst h; exact batchDs_nil B

theorem batchDs_length_aux (B : Nat) (hB : 0 < B) :
    ∀ (n : Nat) (l : List α), l.length ≤ n →
      (batchDs B l).length = (l.length + (B - 1)) / B := by
  intro n
  induction n with
  | zero =>
    intro l hl
    have : l = [] := List.eq_nil_of_length_eq_zero (Nat.le_zero.mp hl)
    subst this
    simp [batchDs_nil, Nat.div_eq_of_lt (by omega : B - 1 < B)]
  | succ n ih =>
    intro l hl
    cases l with
    | nil => simp [batchDs_nil, Nat.div_eq_of_lt (by omega : B - 1 < B)]
    | cons x xs =>
      rw [batchDs_cons B (by omega)]
      have hpos : 0 < (x :: xs).length := by rw [List.length_cons]; omega
      have hdrop : ((x :: xs).drop B).length = (x :: xs).length - B := by
        rw [List.length_drop]
      have hlen : ((x :: xs).drop B).length ≤ n := by
        have hl2 : (x :: xs).length ≤ n + 1 := hl
        rw [hdrop]; omega
      rw [List.length_cons, ih _ hlen, hdrop]
      rcases Nat.lt_or_ge (x :: xs).length B with hc | hc
      · have h1 : (x :: xs).length - B = 0 := by omega
        rw [h1]
        have h2 : (0 + (B - 1)) / B = 0 := Nat.div_eq_of_lt (by omega)
        have h4 : ((x :: xs).length + (B - 1)) / B = 1 :=
          Nat.div_eq_of_lt_le (by omega) (by omega)
        rw [h2, h4]
      · have harg : (x :: xs).length + (B - 1) = ((x :: xs).length - B + (B - 1)) + B := by
          omega
        rw [harg, Nat.add_div_right _ hB]

theorem batchDs_length (B : Nat) (hB : 0 < B) (l : List α) :
    (batchDs B l).length = (l.length + (B - 1)) / B :=
  batchDs_length_aux B hB l.length l le_rfl

theorem batchDs_flatten_aux (B : Nat) (hB : 0 < B) :
    ∀ (n : Nat) (l : List α), l.length ≤ n → (batchDs B l).flatten = l := by
  intro n
  induction n with
  | zero =>
    intro l hl
    have : l = [] := List.eq_nil_of_length_eq_zero (Nat.le_zero.mp hl)
    subst this; simp [batchDs_nil]
  | succ n ih =>
    intro l hl
    cases l with
    | nil => simp [batchDs_nil]
    | cons x xs =>
      rw [batchDs_cons B (by omega)]
      have hlen : ((x :: xs).drop B).length ≤ n := by
        have hl2 : (x :: xs).length ≤ n + 1 := hl
        rw [List.length_drop]; omega
      simp only [List.flatten_cons, ih _ hlen, List.take_append_drop]

theorem batchDs_flatten (B : Nat) (hB : 0 < B) (l : List α) :
    (batchDs B l).flatten = l :=
  batchDs_flatten_aux B hB l.length l le_rfl

theorem batchDs_dropLast_aux (B : Nat) (hB : 0 < B) :
    ∀ (n : Nat) (l : List α), l.length ≤ n →
      ∀ b ∈ (batchDs B l).dropLast, b.length = B := by
  intro n
  induction n with
  | zero =>
    intro l hl
    have : l = [] := List.eq_nil_of_length_eq_zero (Nat.le_zero.mp hl)
    subst this; simp [batchDs_nil]
  | succ n ih =>
    intro l hl
    cases l with
    | nil => simp [batchDs_nil]
    | cons x xs =>
      rw [batchDs_cons B (by omega)]
      rcases eq_or_ne ((x :: xs).drop B) [] with hd | hd
      · rw [hd, batchDs_nil]
        simp
      · have hrest : batchDs B ((x :: xs).drop B) ≠ [] :=
          batchDs_ne_nil B (by omega) _ hd
        rw [List.dropLast_cons_of_ne_nil hrest]
        intro b hb
        rcases List.mem_cons.mp hb with hb | hb
        · subst hb
          have hgt : B ≤ (x :: xs).length := by
            by_contra hc
            have : (x :: xs).drop B = [] := by
              apply List.drop_eq_nil_of_le; omega
            exact hd this
          rw [List.length_take]
          exact Nat.min_eq_left hgt
        · have hlen : ((x :: xs).drop B).length ≤ n := by
            have hl2 : (x :: xs).length ≤ n + 1 := hl
            rw [List.length_drop]; omega
          exact ih _ hlen b hb

theorem batchDs_dropLast (B : Nat) (hB : 0 < B) (l : List α) :
    ∀ b ∈ (batchDs B l).dropLast, b.length = B :=
  batchDs_dropLast_aux B hB l.length l le_rfl

theorem batchDs_getLast_aux (B : Nat) (hB : 0 < B) :
    ∀ (n : Nat) (l : List α), l.length ≤ n → l ≠ [] →
      ∃ lst, (batchDs B l).getLast? = some lst ∧
        lst.length = (if l.length % B = 0 then B else l.length % B) := by
  intro n
  induction n with
  | zero =>
    intro l hl hne
    exact absurd (List.eq_nil_of_length_eq_zero (Nat.le_zero.mp hl)) hne
  | succ n ih =>
    intro l hl hne
    cases l with
    | nil => exact absurd rfl hne
    | cons x xs =>
      rw [batchDs_cons B (by omega)]
      have hpos : 0 < (x :: xs).length := by rw [List.length_cons]; omega
      rcases eq_or_ne ((x :: xs).drop B) [] with hd | hd
      · rw [hd, batchDs_nil]
        have hle : (x :: xs).length ≤ B := by
          by_contra hc
          have hld : ((x :: xs).drop B).length = (x :: xs).length - B := by
            rw [List.length_drop]
          rw [hd] at hld
          simp only [List.length_nil] at hld
          omega
        refine ⟨(x :: xs).take B, by simp, ?_⟩
        rw [List.take_of_length_le hle]
        rcases eq_or_lt_of_le hle with he | hlt
        · rw [he]; simp
        · have hmod : (x :: xs).length % B = (x :: xs).length :=
            Nat.mod_eq_of_lt hlt
          rw [hmod, if_neg (by omega)]
      · have hlen : ((x :: xs).drop B).length ≤ n := by
          have hl2 : (x :: xs).length ≤ n + 1 := hl
          rw [List.length_drop]; omega
        obtain ⟨lst, h1, h2⟩ := ih _ hlen hd
        obtain ⟨r, rs, hrr⟩ : ∃ r rs, batchDs B ((x :: xs).drop B) = r :: rs := by
          cases hrest2 : batchDs B ((x :: xs).drop B) with
          | nil => exact absurd hrest2 (batchDs_ne_nil B (by omega) _ hd)
          | cons r rs => exact ⟨r, rs, rfl⟩
        refine ⟨lst, ?_, ?_⟩
        · rw [hrr]
          rw [hrr] at h1
          rw [List.getLast?_cons_cons]
          exact h1
        · have hge : B ≤ (x :: xs).length := by
            by_contra hc
            exact hd (List.drop_eq_nil_of_le (by omega))
          have hld : ((x :: xs).drop B).length = (x :: xs).length - B := by
            rw [List.length_drop]
          rw [hld] at h2
          rw [← Nat.mod_eq_sub_mod hge] at h2
          exact h2

theorem batchDs_getLast (B : Nat) (hB : 0 < B) (l : List α) (hl : l ≠ []) :
    ∃ lst, (batchDs B l).getLast? = some lst ∧
      lst.length = (if l.length % B = 0 then B else l.length % B) :=
  batchDs_getLast_aux B hB l.length l le_rfl hl

theorem EPS_pos : 0 < EPS := by norm_num [EPS]

theorem imgVar_nonneg (n : Nat) (x : Fin n → ℝ) : 0 ≤ imgVar n x := by
  apply div_nonneg
  · exact Finset.sum_nonneg fun i _ => sq_nonneg _
  · exact Nat.cast_nonneg n

theorem imgMean_const (n : Nat) (hn : 0 < n) (a : ℝ) :
    imgMean n (fun _ => a) = a := by
  have hne : (n : ℝ) ≠ 0 := Nat.cast_ne_zero.mpr hn.ne'
  rw [imgMean, Finset.sum_const, Finset.card_univ, Fintype.card_fin,
    nsmul_eq_mul]
  field_simp

theorem imgVar_const (n : Nat) (hn : 0 < n) (a : ℝ) :
    imgVar n (fun _ => a) = 0 := by
  rw [imgVar, imgMean_const n hn]
  simp

theorem sum_sub_imgMean (n : Nat) (hn : 0 < n) (x : Fin n → ℝ) :
    (∑ i, (x i - imgMean n x)) = 0 := by
  have hne : (n : ℝ) ≠ 0 := Nat.cast_ne_zero.mpr hn.ne'
  rw [Finset.sum_sub_distrib, Finset.sum_const, Finset.card_univ,
    Fintype.card_fin, nsmul_eq_mul, imgMean]
  field_simp

theorem imgMean_normalized (n : Nat) (hn : 0 < n) (raw : Fin n → ℝ) :
    imgMean n (normalize_img_vals n raw) = 0 := by
  have hsum : (∑ i, normalize_img_vals n raw i) = 0 := by
    simp only [normalize_img_vals]
    rw [← Finset.sum_div, sum_sub_imgMean n hn (scale255 n raw), zero_div]
  rw [imgMean, hsum, zero_div]

theorem imgVar_normalized (n : Nat) (hn : 0 < n) (raw : Fin n → ℝ) :
    imgVar n (normalize_img_vals n raw) =
      imgVar n (scale255 n raw) /
        (Real.sqrt (imgVar n (scale255 n raw)) + EPS) ^ 2 := by
  rw [imgVar, imgMean_normalized n hn raw]
  simp only [sub_zero, normalize_img_vals, div_pow]
  rw [← Finset.sum_div, div_right_comm]
  simp only [imgVar]

theorem normalize_img_vals_const (n : Nat) (hn : 0 < n) (c : ℝ) :
    normalize_img_vals n (fun _ => c) = fun _ => 0 := by
  have hx : scale255 n (fun _ => c) = (fun _ : Fin n => c / 255) := rfl
  funext i
  simp only [normalize_img_vals, hx, imgMean_const n hn]
  simp [scale255]

theorem standardized_ratio_bound (s : ℝ) (hs : 1/1000 ≤ s) :
    |s ^ 2 / (s + 1/1000000) ^ 2 - 1| ≤ 2/1000 := by
  have hc : (0 : ℝ) < s + 1/1000000 := by linarith
  have hc2 : (0 : ℝ) < (s + 1/1000000) ^ 2 := pow_pos hc 2
  rw [abs_le]
  constructor
  · have key : (1 - 2/1000) * (s + 1/1000000) ^ 2 ≤ s ^ 2 := by
      nlinarith [sq_nonneg (s - 1/1000), hs]
    have h := (le_div_iff₀ hc2).mpr key
    linarith
  · have key2 : s ^ 2 ≤ (s + 1/1000000) ^ 2 := by nlinarith
    have h := (div_le_one hc2).mpr key2
    linarith

theorem fitAux_fst_le (patience : Nat) (losses : Nat → Rat)
    (weights : Nat → W) :
    ∀ (fuel epoch : Nat) (st : ESState W) (wlast : W),
      (fitAux patience losses weights fuel epoch st wlast).1 ≤ epoch + fuel := by
  intro fuel
  induction fuel with
  | zero => intro epoch st wlast; simp [fitAux]
  | succ n ih =>
    intro epoch st wlast
    rw [fitAux]
    by_cases hcond : patience ≤ (esUpdate (weights epoch) (losses epoch) st).wait
        ∧ 0 < epoch
    · simp only [if_pos hcond]
      omega
    · simp only [if_neg hcond]
      have := ih (epoch + 1) (esUpdate (weights epoch) (losses epoch) st)
        (weights epoch)
      omega

theorem fitAux_step_improve (patience : Nat) (hp : 0 < patience)
    (losses : Nat → Rat) (weights : Nat → W) (fuel epoch : Nat)
    (st : ESState W) (wlast : W)
    (himp : st.best = none ∨ ∃ b, st.best = some b ∧ losses epoch < b) :
    fitAux patience losses weights (fuel + 1) epoch st wlast =
      fitAux patience losses weights fuel (epoch + 1)
        ⟨0, some (losses epoch), some (weights epoch)⟩ (weights epoch) := by
  have hupd : esUpdate (weights epoch) (losses epoch) st =
      ⟨0, some (losses epoch), some (weights epoch)⟩ := by
    rcases himp with h | ⟨b, hb, hlt⟩
    · rw [esUpdate, h]
    · rw [esUpdate, hb]
      simp [hlt]
  rw [fitAux, hupd]
  simp [hp.ne']

theorem fitAux_step_stall (patience : Nat) (losses : Nat → Rat)
    (weights : Nat → W) (fuel epoch : Nat) (st : ESState W) (wlast : W)
    (b : Rat) (hb : st.best = some b) (hni : ¬ losses epoch < b)
    (hwait : st.wait + 1 < patience) :
    fitAux patience losses weights (fuel + 1) epoch st wlast =
      fitAux patience losses weights fuel (epoch + 1)
        ⟨st.wait + 1, st.best, st.bestW⟩ (weights epoch) := by
  have hupd : esUpdate (weights epoch) (losses epoch) st =
      ⟨st.wait + 1, st.best, st.bestW⟩ := by
    rw [esUpdate, hb]
    simp [hni]
  have hcond : ¬ (patience ≤ st.wait + 1 ∧ 0 < epoch) := by
    intro hcase
    exact absurd hcase.1 (by omega)
  rw [fitAux, hupd, if_neg hcond]

theorem fitAux_step_stop (patience : Nat) (losses : Nat → Rat)
    (weights : Nat → W) (fuel epoch : Nat) (st : ESState W) (wlast : W)
    (b : Rat) (hb : st.best = some b) (hni : ¬ losses epoch < b)
    (hwait : patience ≤ st.wait + 1) (hep : 0 < epoch) :
    fitAux patience losses weights (fuel + 1) epoch st wlast =
      (epoch + 1, st.bestW.getD (weights epoch)) := by
  have hupd : esUpdate (weights epoch) (losses epoch) st =
      ⟨st.wait + 1, st.best, st.bestW⟩ := by
    rw [esUpdate, hb]
    simp [hni]
  have hcond : patience ≤ st.wait + 1 ∧ 0 < epoch := ⟨hwait, hep⟩
  rw [fitAux, hupd, if_pos hcond]

theorem fitAux_reach (patience : Nat) (hp : 0 < patience) (K : Nat)
    (losses : Nat → Rat) (weights : Nat → W) (w0 : W)
    (hdec : ∀ j, j + 1 < K → losses (j + 1) < losses j) :
    ∀ j, 1 ≤ j → j ≤ K → ∀ fuel,
      fitAux patience losses weights (j + fuel) 0 ⟨0, none, none⟩ w0 =
        fitAux patience losses weights fuel j
          ⟨0, some (losses (j - 1)), some (weights (j - 1))⟩
          (weights (j - 1)) := by
  intro j hj1
  induction j, hj1 using Nat.le_induction with
  | base =>
    intro hK fuel
    have e : 1 + fuel = fuel + 1 := by omega
    rw [e, fitAux_step_improve patience hp losses weights fuel 0
      ⟨0, none, none⟩ w0 (Or.inl rfl)]
  | succ j hj ih =>
    intro hK fuel
    have e : j + 1 + fuel = j + (fuel + 1) := by omega
    rw [e, ih (by omega) (fuel + 1)]
    have himp : losses j < losses (j - 1) := by
      have h2 := hdec (j - 1) (by omega)
      have e2 : j - 1 + 1 = j := by omega
      rwa [e2] at h2
    rw [fitAux_step_improve patience hp losses weights fuel j
      ⟨0, some (losses (j - 1)), some (weights (j - 1))⟩ (weights (j - 1))
      (Or.inr ⟨losses (j - 1), rfl, himp⟩)]
    norm_num

theorem fitAux_stall_run (losses : Nat → Rat) (weights : Nat → W) (b : Rat)
    (wb : W) :
    ∀ (d wait epoch fuel : Nat) (wlast : W),
      0 < epoch →
      (∀ i, epoch ≤ i → ¬ losses i < b) →
      wait + d + 1 = 5 →
      fitAux 5 losses weights (fuel + d + 1) epoch
          ⟨wait, some b, some wb⟩ wlast =
        (epoch + d + 1, wb) := by
  intro d
  induction d with
  | zero =>
    intro wait epoch fuel wlast hep hplat hsum
    have h := fitAux_step_stop 5 losses weights fuel epoch
      ⟨wait, some b, some wb⟩ wlast b rfl (hplat epoch le_rfl)
      (by simp; omega) hep
    simpa using h
  | succ d ih =>
    intro wait epoch fuel wlast hep hplat hsum
    have h := fitAux_step_stall 5 losses weights (fuel + d + 1) epoch
      ⟨wait, some b, some wb⟩ wlast b rfl (hplat epoch le_rfl)
      (by simp; omega)
    have e1 : fuel + (d + 1) + 1 = (fuel + d + 1) + 1 := by omega
    rw [e1, h]
    have h2 := ih (wait + 1) (epoch + 1) fuel (weights epoch) (by omega)
      (fun i hi => hplat i (by omega)) (by omega)
    dsimp only
    rw [h2]
    have e2 : epoch + 1 + d + 1 = epoch + (d + 1) + 1 := by omega
    rw [e2]

theorem one_hot_sum_zero (depth : Nat) (label : Int)
    (h : (depth : Int) ≤ label ∨ label < 0) :
    (one_hot depth label).sum = 0 := by
  induction depth with
  | zero => rfl
  | succ d ih =>
    rw [one_hot, List.range_succ, List.map_append, List.sum_append]
    have hne : ((d : Nat) : Int) ≠ label := by omega
    have hih := ih (by omega)
    rw [one_hot] at hih
    rw [hih]
    simp [hne]

theorem one_hot_sum_one (depth : Nat) (label : Int) (h0 : 0 ≤ label)
    (hlt : label < (depth : Int)) :
    (one_hot depth label).sum = 1 := by
  induction depth with
  | zero => omega
  | succ d ih =>
    rw [one_hot, List.range_succ, List.map_append, List.sum_append]
    rcases eq_or_ne ((d : Nat) : Int) label with he | hne
    · have hz := one_hot_sum_zero d label (by omega)
      rw [one_hot] at hz
      rw [hz]
      simp [he]
    · have hih := ih (by omega)
      rw [one_hot] at hih
      rw [hih]
      simp [hne]

/-! ## Claims -/

/-- C1: the claim says the two model.save calls (Keras and HDF5 format)
complete and only the subsequent model.export call raises.  Evaluating the
persistence tail against the actual module environment instead raises
NameError at the MODEL_DIR directory check of line 142 (MODEL_DIR is never
bound anywhere in the script), before any save call executes: no model file
is written at all. -/
theorem C1_persistence_names :
    persistenceTrace = ([], some (PyErr.nameError "MODEL_DIR")) ∧
    persistenceTrace ≠
      (["CNN1_saved_model.keras", "CNN1_mnist_model.h5"],
        some (PyErr.attributeError "export")) := by
  constructor
  · decide
  · decide

/-- C2: the claim says the per-sample transform outputs images of shape
28 x 28 x 1, the declared model input shape.  On the tfds mnist image shape
(28, 28, 1) the transform instead outputs shape (28, 28, 1, 1): line 41
appends a second unit axis to an image that already carries its channel
axis, so the output does not match INPUT_SHAPE. -/
theorem C2_output_shape :
    normalize_img_shape mnistImageShape = some [28, 28, 1, 1] ∧
    some [28, 28, 1, 1] ≠ some INPUT_SHAPE := by
  constructor
  · decide
  · decide

/-- C3 (amended): the preprocessed image always has per-image mean exactly 0,
and whenever the pre-standardization standard deviation is at least 1/1000
(one thousand times the epsilon guard 1e-6) the preprocessed variance is
within 2/1000 of 1.  Unconditionally over every image the claim fails, since
a constant image standardizes to variance 0 (see the counterexample). -/
theorem C3_standardization (n : Nat) (raw : Fin n → ℝ) (hn : 0 < n) :
    imgMean n (normalize_img_vals n raw) = 0 ∧
    (1/1000 ≤ Real.sqrt (imgVar n (scale255 n raw)) →
      |imgVar n (normalize_img_vals n raw) - 1| ≤ 2/1000) := by
  refine ⟨imgMean_normalized n hn raw, fun hs => ?_⟩
  rw [imgVar_normalized n hn raw]
  have hvnn := imgVar_nonneg n (scale255 n raw)
  have hv : imgVar n (scale255 n raw)
      = Real.sqrt (imgVar n (scale255 n raw)) ^ 2 :=
    (Real.sq_sqrt hvnn).symm
  nth_rewrite 1 [hv]
  rw [show EPS = 1/1000000 from rfl]
  exact standardized_ratio_bound _ hs

/-- C3 witness: the 2-pixel image with raw values 0 and 255 scales to values
0 and 1, with mean 1/2, variance 1/4 and standard deviation 1/2 at least
1/1000; the standardized mean is 0 and the variance is within 2/1000 of 1. -/
theorem C3_standardization_witness :
    ((0 : Nat) < 2 ∧
      1/1000 ≤ Real.sqrt (imgVar 2 (scale255 2 ![0, 255]))) ∧
    imgMean 2 (normalize_img_vals 2 ![0, 255]) = 0 ∧
    |imgVar 2 (normalize_img_vals 2 ![0, 255]) - 1| ≤ 2/1000 := by
  have hvar : imgVar 2 (scale255 2 ![0, 255]) = 1/4 := by
    rw [imgVar, imgMean, Fin.sum_univ_two, Fin.sum_univ_two]
    norm_num [scale255, Matrix.cons_val_zero, Matrix.cons_val_one,
      Matrix.head_cons]
  have hsq : Real.sqrt (imgVar 2 (scale255 2 ![0, 255])) = 1/2 := by
    rw [hvar, show (1/4 : ℝ) = (1/2) ^ 2 by norm_num,
      Real.sqrt_sq (by norm_num : (0:ℝ) ≤ 1/2)]
  have h := C3_standardization 2 ![0, 255] (by norm_num)
  exact ⟨⟨by norm_num, by rw [hsq]; norm_num⟩, h.1,
    h.2 (by rw [hsq]; norm_num)⟩

/-- C3 counterexample: the all-zero mnist image (784 pixels) standardizes to
variance 0, which is not within tolerance of 1 (not even within 1/2), so the
unconditional form of the claim is false. -/
theorem C3_standardization_counterexample :
    imgVar MNIST_PIXELS
        (normalize_img_vals MNIST_PIXELS (fun _ => (0:ℝ))) = 0 ∧
    ¬ |imgVar MNIST_PIXELS
        (normalize_img_vals MNIST_PIXELS (fun _ => (0:ℝ))) - 1| ≤ 1/2 := by
  have hn : 0 < MNIST_PIXELS := by norm_num [MNIST_PIXELS]
  have h0 : normalize_img_vals MNIST_PIXELS (fun _ => (0:ℝ))
      = fun _ => 0 :=
    normalize_img_vals_const MNIST_PIXELS hn 0
  rw [h0, imgVar_const MNIST_PIXELS hn 0]
  norm_num

/-- C4: the fit loop of main (50 max epochs, EarlyStopping with patience 5
monitoring val_loss, restore_best_weights) runs at most 50 epochs; and for
every validation-loss sequence that strictly improves for K epochs and then
plateaus at its best value (with K at least 1 and K + 5 within the epoch
budget), training stops after exactly K + 5 epochs and returns the weight
snapshot of the best epoch, namely 0-indexed epoch K - 1. -/
theorem C4_early_stopping :
    (∀ (W : Type) (losses : Nat → Rat) (weights : Nat → W) (w0 : W),
      (fit ES_PATIENCE MAX_EPOCHS losses weights w0).1 ≤ MAX_EPOCHS) ∧
    (∀ (W : Type) (K : Nat) (losses : Nat → Rat) (weights : Nat → W)
      (w0 : W),
      1 ≤ K → K + 5 ≤ MAX_EPOCHS →
      (∀ j, j + 1 < K → losses (j + 1) < losses j) →
      (∀ i, K ≤ i → losses i = losses (K - 1)) →
      fit ES_PATIENCE MAX_EPOCHS losses weights w0
        = (K + 5, weights (K - 1))) := by
  constructor
  · intro W losses weights w0
    have h := fitAux_fst_le ES_PATIENCE losses weights MAX_EPOCHS 0
      ⟨0, none, none⟩ w0
    simpa [fit] using h
  · intro W K losses weights w0 hK hK5 hdec hplat
    have hK5' : K + 5 ≤ 50 := by
      have e0 : MAX_EPOCHS = 50 := rfl
      rwa [e0] at hK5
    rw [fit, show ES_PATIENCE = 5 from rfl, show MAX_EPOCHS = 50 from rfl]
    have e : (50 : Nat) = K + ((50 - K - 5) + 5) := by omega
    rw [e]
    rw [fitAux_reach 5 (by norm_num) K losses weights w0 hdec K hK le_rfl
      ((50 - K - 5) + 5)]
    have hplat2 : ∀ i, K ≤ i → ¬ losses i < losses (K - 1) := by
      intro i hi
      rw [hplat i hi]
      exact lt_irrefl _
    have hrun := fitAux_stall_run losses weights (losses (K - 1))
      (weights (K - 1)) 4 0 K (50 - K - 5) (weights (K - 1)) (by omega)
      hplat2 (by norm_num)
    have e2 : (50 - K - 5) + 5 = (50 - K - 5) + 4 + 1 := by omega
    have e3 : K + 4 + 1 = K + 5 := by omega
    rw [e2, hrun, e3]

/-- C4 witness: the loss sequence 10, 5, 5, 5, ... improves for K = 2 epochs
then plateaus; with weights i = i the fit loop stops after 7 epochs and
returns the epoch-1 snapshot. -/
theorem C4_early_stopping_witness :
    (1 ≤ 2 ∧ 2 + 5 ≤ MAX_EPOCHS ∧
      (∀ j, j + 1 < 2 → wlosses (j + 1) < wlosses j) ∧
      (∀ i, 2 ≤ i → wlosses i = wlosses (2 - 1))) ∧
    fit ES_PATIENCE MAX_EPOCHS wlosses (fun i => i) 0 = (7, 1) := by
  have hdec : ∀ j, j + 1 < 2 → wlosses (j + 1) < wlosses j := by
    intro j hj
    have hj0 : j = 0 := by omega
    subst hj0
    norm_num [wlosses]
  have hplat : ∀ i, 2 ≤ i → wlosses i = wlosses (2 - 1) := by
    intro i hi
    have h1 : i ≠ 0 := by omega
    simp [wlosses, h1]
  have h := C4_early_stopping.2 Nat 2 wlosses (fun i => i) 0 (by norm_num)
    (by norm_num [MAX_EPOCHS]) hdec hplat
  refine ⟨⟨by norm_num, by norm_num [MAX_EPOCHS], hdec, hplat⟩, ?_⟩
  simpa using h

/-- C5: for every label in 0..9, tf.one_hot(label, 10) has length exactly 10,
exactly one entry equal to 1, the other nine entries 0, and sum 1. -/
theorem C5_one_hot (label : Int) (h0 : 0 ≤ label) (h9 : label ≤ 9) :
    (one_hot NUM_CLASSES label).length = 10 ∧
    (one_hot NUM_CLASSES label).count 1 = 1 ∧
    (one_hot NUM_CLASSES label).count 0 = 9 ∧
    (one_hot NUM_CLASSES label).sum = 1 := by
  refine ⟨by simp [one_hot, NUM_CLASSES], ?_, ?_, ?_⟩
  · interval_cases label <;> decide
  · interval_cases label <;> decide
  · exact one_hot_sum_one NUM_CLASSES label h0
      (by rw [show ((NUM_CLASSES : Nat) : Int) = 10 from rfl]; omega)

/-- C5 witness: label 3. -/
theorem C5_one_hot_witness :
    ((0:Int) ≤ 3 ∧ (3:Int) ≤ 9) ∧
    ((one_hot NUM_CLASSES 3).length = 10 ∧
      (one_hot NUM_CLASSES 3).count 1 = 1 ∧
      (one_hot NUM_CLASSES 3).count 0 = 9 ∧
      (one_hot NUM_CLASSES 3).sum = 1) :=
  ⟨⟨by decide, by decide⟩, C5_one_hot 3 (by decide) (by decide)⟩

/-- C6: batching a dataset of N samples with batch size 128 produces exactly
ceil(N/128) = (N + 127) / 128 batches, every batch except possibly the last
has size 128, and for a nonempty dataset the final batch has size N mod 128,
or 128 when 128 divides N. -/
theorem C6_batching (α : Type) (l : List α) :
    (batchDs BATCH_SIZE l).length = (l.length + 127) / 128 ∧
    (∀ b ∈ (batchDs BATCH_SIZE l).dropLast, b.length = 128) ∧
    (l ≠ [] → ∃ lst, (batchDs BATCH_SIZE l).getLast? = some lst ∧
      lst.length = (if l.length % 128 = 0 then 128 else l.length % 128)) := by
  have hB : (0:Nat) < BATCH_SIZE := by norm_num [BATCH_SIZE]
  refine ⟨?_, ?_, ?_⟩
  · rw [batchDs_length BATCH_SIZE hB l]
    norm_num [BATCH_SIZE]
  · intro b hb
    have h := batchDs_dropLast BATCH_SIZE hB l b hb
    rwa [show BATCH_SIZE = 128 from rfl] at h
  · intro hl
    have h := batchDs_getLast BATCH_SIZE hB l hl
    rwa [show BATCH_SIZE = 128 from rfl] at h

/-- C6 witness: the 3-element dataset [0, 1, 2] yields one batch of size 3 =
3 mod 128. -/
theorem C6_batching_witness :
    (([0, 1, 2] : List Nat) ≠ []) ∧
    (batchDs BATCH_SIZE ([0, 1, 2] : List Nat)).length
      = (([0, 1, 2] : List Nat).length + 127) / 128 ∧
    (∀ b ∈ (batchDs BATCH_SIZE ([0, 1, 2] : List Nat)).dropLast,
      b.length = 128) ∧
    (∃ lst,
      (batchDs BATCH_SIZE ([0, 1, 2] : List Nat)).getLast? = some lst ∧
      lst.length = (if ([0, 1, 2] : List Nat).length % 128 = 0 then 128
        else ([0, 1, 2] : List Nat).length % 128)) := by
  have h := C6_batching Nat [0, 1, 2]
  exact ⟨by decide, h.1, h.2.1, h.2.2 (by decide)⟩

/-- C7 (amended): the train pipeline applies, in order, the per-sample
transform (auto-parallelized), in-memory caching, shuffling with buffer 1000,
batching into 128, and prefetching with the auto-tuned buffer AUTOTUNE
(rather than a fixed one-batch buffer as claimed); the test pipeline applies
the transform, batching (128), caching and prefetching (AUTOTUNE) with no
shuffle stage, and flattening the test pipeline output returns exactly the
transformed samples in source order. -/
theorem C7_pipeline_order (α β : Type) (f : α → β) (l : List α) :
    ds_train_ops =
      [.mapNormalize .autotune, .cache, .shuffle 1000,
       .batch 128, .prefetch .autotune] ∧
    ds_test_ops =
      [.mapNormalize .autotune, .batch 128, .cache, .prefetch .autotune] ∧
    (ds_test_eval f l).flatten = l.map f := by
  refine ⟨by decide, by decide, ?_⟩
  simp only [ds_test_eval, cacheDs, prefetchDs]
  exact batchDs_flatten BATCH_SIZE (by norm_num [BATCH_SIZE]) (l.map f)

/-- C7 counterexample: the claim reads both pipelines as prefetching one
batch ahead; the script passes tf.data.AUTOTUNE to prefetch in both
pipelines, so neither op list equals the claimed one with a one-batch
prefetch buffer. -/
theorem C7_pipeline_counterexample :
    ds_train_ops ≠
      [.mapNormalize .autotune, .cache, .shuffle 1000,
       .batch 128, .prefetch (.bufSize 1)] ∧
    ds_test_ops ≠
      [.mapNormalize .autotune, .batch 128, .cache,
       .prefetch (.bufSize 1)] := by
  constructor
  · decide
  · decide

/-- C8: build_model is exactly the ten-stage stack Conv(32,5x5,relu,valid,
he_normal), MaxPool 2, Dropout 0.15, Conv(64,5x5,relu,valid,he_normal),
MaxPool 2, Dropout 0.15, Flatten, Dense(1024,relu,he_normal), Dropout 0.15,
Dense(10,softmax); compiled with Adam at learning rate 0.001, categorical
cross-entropy and the accuracy metric; and the stack is shape-consistent,
carrying the declared input (28,28,1) to a 10-way output. -/
theorem C8_architecture :
    build_model_layers =
      [ .conv2d 32 5 .relu .valid .heNormal,
        .maxPooling2d 2,
        .dropout (15/100),
        .conv2d 64 5 .relu .valid .heNormal,
        .maxPooling2d 2,
        .dropout (15/100),
        .flatten,
        .dense 1024 .relu .heNormal,
        .dropout (15/100),
        .dense 10 .softmax .glorotUniform ] ∧
    build_model_compile
      = ⟨.adam, 1/1000, .categoricalCrossentropy, [.accuracy]⟩ ∧
    shapeAfter build_model_layers INPUT_SHAPE = some [10] := by
  refine ⟨rfl, rfl, by decide⟩

/-- C9: for every input image the per-image variance of the scaled image is
non-negative, so the standardization denominator sqrt(var) + 1e-6 of line 40
is strictly positive and nonzero: the division never divides by zero. -/
theorem C9_denominator_positive (n : Nat) (raw : Fin n → ℝ) :
    0 ≤ imgVar n (scale255 n raw) ∧
    0 < Real.sqrt (imgVar n (scale255 n raw)) + EPS ∧
    Real.sqrt (imgVar n (scale255 n raw)) + EPS ≠ 0 := by
  have h1 := imgVar_nonneg n (scale255 n raw)
  have h2 : 0 < Real.sqrt (imgVar n (scale255 n raw)) + EPS :=
    add_pos_of_nonneg_of_pos (Real.sqrt_nonneg _) EPS_pos
  exact ⟨h1, h2, h2.ne'⟩

/-- C10: a constant mnist image (784 equal pixels, e.g. all zero) has scaled
per-image variance 0, the epsilon guard keeps the denominator nonzero, and
the transform returns the all-zero image, whose variance is 0, not 1. -/
theorem C10_constant_image (c : ℝ) :
    imgVar MNIST_PIXELS (scale255 MNIST_PIXELS (fun _ => c)) = 0 ∧
    Real.sqrt (imgVar MNIST_PIXELS (scale255 MNIST_PIXELS (fun _ => c)))
      + EPS ≠ 0 ∧
    normalize_img_vals MNIST_PIXELS (fun _ => c) = (fun _ => 0) ∧
    imgVar MNIST_PIXELS (normalize_img_vals MNIST_PIXELS (fun _ => c)) = 0 := by
  have hn : 0 < MNIST_PIXELS := by norm_num [MNIST_PIXELS]
  have hx : scale255 MNIST_PIXELS (fun _ => c)
      = (fun _ : Fin MNIST_PIXELS => c / 255) := rfl
  have h0 := normalize_img_vals_const MNIST_PIXELS hn c
  refine ⟨?_, ?_, h0, ?_⟩
  · rw [hx, imgVar_const MNIST_PIXELS hn]
  · exact (add_pos_of_nonneg_of_pos (Real.sqrt_nonneg _) EPS_pos).ne'
  · rw [h0, imgVar_const MNIST_PIXELS hn]

end CNN1
